import Mathlib

/-!
Shallow embedding of `src/analisis.py` (informe-ventas): a four stage batch
pipeline load → aggregate → render → report over a sales table.

Modelling conventions:
* A pandas `NaN` in a numeric column is `Option`'s `none`; pandas `sum`
  (used by `resample(...).sum()`, `groupby(...).sum()` and `Series.sum()`)
  skips `NaN` values by default (`skipna=True`, `min_count=0`), so a sum is
  always a defined rational, with `none` contributing nothing.
* `pd.to_numeric(col, errors="coerce")` maps a numeric cell to its value and
  any non-numeric or missing cell to `NaN`. `.astype(int)` is the numpy
  float64→int64 cast: toward-zero truncation for in-range finite values, the
  int64 sentinel `-2^63` for out-of-range finite values, and a raised
  `ValueError` (ending the run) if the column holds `inf`/`-inf`.
* `resample("ME")` over a date index produces one bucket per calendar month
  from the earliest to the latest month of the data, inclusive, in
  chronological order, labelling each bucket by its month.
* `groupby("producto")` groups by product name (keys sorted ascending, the
  pandas default), and `sort_values(ascending=False)` re-sorts a series by
  value, descending; `idxmax` returns the first index attaining the maximum.
* `sys.exit(1)` in the loader and an unhandled exception both terminate the
  process with exit status 1 before any output file is written.
-/

namespace InformeVentas

/-- A calendar date (`fecha` column after `parse_dates`). -/
structure Fecha where
  year : Nat
  month : Nat
  day : Nat
deriving DecidableEq, Repr

/-- Truncation of a date to its calendar month, as a linear month index. -/
def monthIdx (f : Fecha) : Nat := f.year * 12 + (f.month - 1)

/-- A raw CSV cell destined for the price column: a finite numeric literal
(`q` is the exact value of the parsed float, floats being rationals), a
non-numeric string, or an empty cell. The price column only goes through
`to_numeric`, which never raises, so the claims never depend on a
non-finite price cell and the price model stays finite-or-`NaN`. -/
inductive RawVal where
  | num (q : ℚ)
  | invalid
  | missing
deriving DecidableEq, Repr

/-- A raw CSV cell destined for the quantity column. Unlike the price
column, the quantity column is fed to `.astype(int)`, which is sensitive to
non-finite floats, so this type also carries the cells `to_numeric` parses
to `inf`/`-inf`. -/
inductive RawCant where
  | num (q : ℚ)
  | inf (neg : Bool)
  | invalid
  | missing
deriving DecidableEq, Repr

/-- A raw CSV data row (the `fecha` cell already parsed by `read_csv`
`parse_dates`; an unparseable date makes the whole input unparseable). -/
structure RawRow where
  fecha : Fecha
  producto : String
  cantidad : RawCant
  precio : RawVal
deriving DecidableEq, Repr

/-- The possible states of the input file `ventas.csv` as seen by
`cargar_csv`: absent, present but rejected by `pd.read_csv`, or parsed into
a header list and data rows. -/
inductive CsvInput where
  | fileMissing
  | unparseable
  | parsed (cols : List String) (rows : List RawRow)

/-- A regex word character `\w` (ASCII fragment): alphanumeric or underscore. -/
def isWordChar (c : Char) : Bool := c.isAlphanum || c = '_'

/-- Column-name normalization of `analisis.py` lines 30–35, expressed on the
character list of the name: strip surrounding whitespace (`str.strip`),
lowercase (`str.lower`), turn each space into an underscore
(`str.replace(" ", "_")` with a one-character pattern), and drop every
character that is not a word character (`str.replace(r"[^\w_]", "")`). -/
def normalizar (s : String) : String :=
  let stripped :=
    ((s.toList.dropWhile (fun c => c.isWhitespace)).reverse.dropWhile
      (fun c => c.isWhitespace)).reverse
  let lowered := stripped.map Char.toLower
  let spaced := lowered.map (fun c => if c = ' ' then '_' else c)
  (spaced.filter isWordChar).asString

/-- The model of `pd.to_numeric(_, errors="coerce")` on one price cell. -/
def to_numeric : RawVal → Option ℚ
  | RawVal.num q => some q
  | RawVal.invalid => none
  | RawVal.missing => none

/-- The sentinel value the numpy float64→int64 cast produces for a finite
value outside the int64 range (`-2^63`, what `cvttsd2si` returns): the cast
wraps such values, it does not keep them. -/
def int64Sentinel : Int := -9223372036854775808

/-- The numpy float64→int64 cast used by `.astype(int)` on one finite
value: toward-zero truncation when the truncation fits in int64
(`-2^63 ≤ t < 2^63`), the int64 sentinel `-2^63` otherwise. -/
def castInt64 (q : ℚ) : Int :=
  let t := Int.tdiv q.num (Int.ofNat q.den)
  if t < -9223372036854775808 ∨ 9223372036854775808 ≤ t then int64Sentinel
  else t

/-- Whether `pd.to_numeric` turns the quantity cell into a non-finite float
(`inf`/`-inf`) — the values `.astype(int)` refuses to cast, raising
`Cannot convert non-finite values (NA or inf) to integer`. (`NaN` cells do
not count: `fillna(0)` has already replaced them.) -/
def esNoFinito : RawCant → Bool
  | RawCant.inf _ => true
  | _ => false

/-- `pd.to_numeric(.., errors="coerce").fillna(0).astype(int)` on one
finite-or-`NaN` quantity cell (`analisis.py` line 46): a finite numeric
cell is cast to int64, a non-numeric or missing cell becomes `NaN` and is
filled with `0`. A non-finite cell makes the whole `astype` raise instead
— that path is the column-level guard in `cargar_csv`, and this function
is never consulted on it. -/
def coerce_cantidad : RawCant → Int
  | RawCant.num q => castInt64 q
  | RawCant.inf _ => 0
  | RawCant.invalid => 0
  | RawCant.missing => 0

/-- `pd.to_numeric(.., errors="coerce")` on one price cell
(`analisis.py` line 47): a non-numeric or missing price stays `NaN`. -/
def coerce_precio (v : RawVal) : Option ℚ := to_numeric v

/-- A row of the validated table returned by `cargar_csv`. -/
structure Row where
  fecha : Fecha
  producto : String
  cantidad : Int
  precio : Option ℚ
deriving DecidableEq, Repr

/-- The required columns checked at `analisis.py` line 38. -/
def requeridas : List String := ["fecha", "producto", "cantidad", "precio"]

/-- `cargar_csv` (`analisis.py` lines 16–49): missing file and parse failure
exit with status 1; after normalizing the header, a missing required column
exits with status 1; then the numeric columns are coerced. The quantity
coercion's `.astype(int)` raises on a non-finite (`inf`) cell — an uncaught
exception that also ends the process with status 1 — and otherwise the
table is returned with every row kept. -/
def cargar_csv : CsvInput → Except Nat (List Row)
  | CsvInput.fileMissing => Except.error 1
  | CsvInput.unparseable => Except.error 1
  | CsvInput.parsed cols rows =>
    let ncols := cols.map normalizar
    if requeridas.all (fun c => ncols.contains c) then
      if rows.any (fun r => esNoFinito r.cantidad) then
        Except.error 1
      else
        Except.ok (rows.map (fun r =>
          { fecha := r.fecha, producto := r.producto,
            cantidad := coerce_cantidad r.cantidad,
            precio := coerce_precio r.precio }))
    else
      Except.error 1

/-- The derived revenue of one row, `df["cantidad"] * df["precio"]`
(`analisis.py` line 55): `NaN` price gives `NaN` revenue. -/
def ingreso (r : Row) : Option ℚ :=
  r.precio.map (fun p => (r.cantidad : ℚ) * p)

/-- A pandas sum over a column that may hold `NaN`: `NaN` entries are
skipped (`skipna=True`), the empty sum is `0` (`min_count=0`). -/
def sumSkip (xs : List (Option ℚ)) : ℚ :=
  (xs.map (fun x => x.getD 0)).sum

/-- Minimum of a series, `none` on the empty series. -/
def seriesMin [Min α] : List α → Option α
  | [] => none
  | a :: as =>
    some (match seriesMin as with
          | none => a
          | some b => min a b)

/-- Maximum of a series, `none` on the empty series (pandas `max`/`idxmax`
raise on an empty series). -/
def seriesMax [Max α] : List α → Option α
  | [] => none
  | a :: as =>
    some (match seriesMax as with
          | none => a
          | some b => max a b)

/-- The month buckets produced by `resample("ME")`: every calendar month
from the earliest to the latest transaction month, inclusive. -/
def mesesRango (rows : List Row) : List Nat :=
  match seriesMin (rows.map (fun r => monthIdx r.fecha)),
        seriesMax (rows.map (fun r => monthIdx r.fecha)) with
  | some lo, some hi => (List.range (hi + 1 - lo)).map (fun i => lo + i)
  | _, _ => []

/-- `df.set_index("fecha").resample("ME")["ingreso"].sum()`
(`analisis.py` lines 58–62): one entry per month bucket, holding the
`NaN`-skipping sum of the revenues of the rows falling in that month. -/
def ventas_mensuales (rows : List Row) : List (Nat × ℚ) :=
  (mesesRango rows).map (fun m =>
    (m, sumSkip ((rows.filter (fun r => monthIdx r.fecha == m)).map ingreso)))

/-- Ordered insertion for the sort below. -/
def insertBy (le : α → α → Bool) (x : α) : List α → List α
  | [] => [x]
  | y :: ys => if le x y then x :: y :: ys else y :: insertBy le x ys

/-- A comparison sort (the model of pandas `sort_values` and of the sorted
group keys of `groupby`; pandas leaves the relative order of tied values
unspecified, so any comparison sort is a faithful model). -/
def sortBy (le : α → α → Bool) : List α → List α
  | [] => []
  | x :: xs => insertBy le x (sortBy le xs)

/-- Lexicographic comparison of two character lists (how pandas compares the
string labels when sorting group keys). -/
def charListLe : List Char → List Char → Bool
  | [], _ => true
  | _ :: _, [] => false
  | a :: as, b :: bs =>
    if a < b then true else if b < a then false else charListLe as bs

/-- Lexicographic comparison of two strings. -/
def strLe (a b : String) : Bool := charListLe a.toList b.toList

/-- The group keys of `df.groupby("producto")`: the distinct product names,
sorted ascending (pandas groupby default `sort=True`). -/
def productos (rows : List Row) : List String :=
  sortBy strLe ((rows.map Row.producto).dedup)

/-- `df.groupby("producto")["cantidad"].sum().sort_values(ascending=False)`
(`analisis.py` lines 65–69). -/
def cant_por_producto (rows : List Row) : List (String × Int) :=
  sortBy (fun a b => decide (b.2 ≤ a.2))
    ((productos rows).map (fun p =>
      (p, ((rows.filter (fun r => r.producto == p)).map Row.cantidad).sum)))

/-- `df.groupby("producto")["ingreso"].sum().sort_values(ascending=False)`
(`analisis.py` lines 70–74): the per-product sums skip `NaN` revenues. -/
def ingresos_por_producto (rows : List Row) : List (String × ℚ) :=
  sortBy (fun a b => decide (b.2 ≤ a.2))
    ((productos rows).map (fun p =>
      (p, sumSkip ((rows.filter (fun r => r.producto == p)).map ingreso))))

/-- Series `max`: the maximum value, `none` (an exception) on empty. -/
def maxVal [Max α] (l : List (β × α)) : Option α :=
  seriesMax (l.map Prod.snd)

/-- Series `idxmax`: the first key attaining the maximum value, `none`
(an exception) on empty. -/
def idxmax [Max α] [DecidableEq α] (l : List (β × α)) : Option β :=
  match maxVal l with
  | none => none
  | some m => (l.find? (fun x => decide (x.2 = m))).map Prod.fst

/-- The bundle returned by `calcular_metricas` (`analisis.py` lines 82–91).
`df` pairs each input row with its derived `ingreso` column. -/
structure Metricas where
  df : List (Row × Option ℚ)
  ventas_mensuales : List (Nat × ℚ)
  cant_por_producto : List (String × Int)
  ingresos_por_producto : List (String × ℚ)
  producto_mas_vendido : String
  cantidad_max : Int
  producto_top_ingresos : String
  ingresos_max : ℚ

/-- `calcular_metricas` (`analisis.py` lines 52–91). The function copies the
table, adds the revenue column to the copy, aggregates, and reads off the
two top products with `idxmax`/`max`; on an empty table those raise, which
the model renders as `none`. -/
def calcular_metricas (rows : List Row) : Option Metricas :=
  match idxmax (cant_por_producto rows), maxVal (cant_por_producto rows),
        idxmax (ingresos_por_producto rows), maxVal (ingresos_por_producto rows) with
  | some pmv, some cm, some pti, some im =>
    some { df := rows.map (fun r => (r, ingreso r)),
           ventas_mensuales := ventas_mensuales rows,
           cant_por_producto := cant_por_producto rows,
           ingresos_por_producto := ingresos_por_producto rows,
           producto_mas_vendido := pmv, cantidad_max := cm,
           producto_top_ingresos := pti, ingresos_max := im }
  | _, _, _, _ => none

/-- Observable outcome of one run of the program: the process exit status
and the output files written to the working directory. -/
structure RunResult where
  exitCode : Nat
  archivos : List String
deriving DecidableEq, Repr

/-- The three output files of a successful run. -/
def salidas : List String :=
  ["ventas_por_mes.png", "ventas_top5_productos.png", "informe.txt"]

/-- `main` (`analisis.py` lines 152–185): load, aggregate, then write the two
charts and the report. A loader failure (`sys.exit(1)`) and an exception in
`calcular_metricas` both terminate with status 1 before any file is written;
on success all three files are written and the process exits 0. -/
def run_main (input : CsvInput) : RunResult :=
  match cargar_csv input with
  | Except.error c => { exitCode := c, archivos := [] }
  | Except.ok rows =>
    match calcular_metricas rows with
    | none => { exitCode := 1, archivos := [] }
    | some _ => { exitCode := 0, archivos := salidas }

/-! Helper lemmas about the sort, the series extrema, and sums. -/

theorem perm_insertBy (le : α → α → Bool) (x : α) :
    ∀ l : List α, List.Perm (insertBy le x l) (x :: l)
  | [] => List.Perm.refl _
  | y :: ys => by
    cases h : le x y with
    | true => simp [insertBy, h]
    | false =>
      simp only [insertBy, h, Bool.false_eq_true, if_false]
      exact ((perm_insertBy le x ys).cons y).trans (List.Perm.swap x y ys)

theorem perm_sortBy (le : α → α → Bool) :
    ∀ l : List α, List.Perm (sortBy le l) l
  | [] => List.Perm.refl _
  | x :: xs => (perm_insertBy le x (sortBy le xs)).trans ((perm_sortBy le xs).cons x)

theorem length_sortBy (le : α → α → Bool) (l : List α) :
    (sortBy le l).length = l.length :=
  (perm_sortBy le l).length_eq

theorem mem_sortBy (le : α → α → Bool) (l : List α) (a : α) :
    a ∈ sortBy le l ↔ a ∈ l :=
  (perm_sortBy le l).mem_iff

theorem pairwise_insertBy (le : α → α → Bool)
    (htrans : ∀ a b c, le a b = true → le b c = true → le a c = true)
    (htotal : ∀ a b, le a b = true ∨ le b a = true) (x : α) :
    ∀ {l : List α}, l.Pairwise (fun a b => le a b = true) →
      (insertBy le x l).Pairwise (fun a b => le a b = true)
  | [], _ => by simp [insertBy]
  | y :: ys, h => by
    rcases List.pairwise_cons.mp h with ⟨hy, hys⟩
    cases hxy : le x y with
    | true =>
      simp only [insertBy, hxy, if_true]
      refine List.pairwise_cons.mpr ⟨?_, h⟩
      intro z hz
      rcases List.mem_cons.mp hz with rfl | hz
      · exact hxy
      · exact htrans x y z hxy (hy z hz)
    | false =>
      simp only [insertBy, hxy, Bool.false_eq_true, if_false]
      refine List.pairwise_cons.mpr
        ⟨?_, pairwise_insertBy le htrans htotal x hys⟩
      intro z hz
      rw [(perm_insertBy le x ys).mem_iff, List.mem_cons] at hz
      rcases hz with rfl | hz
      · rcases htotal z y with h1 | h1
        · exact absurd h1 (by simp [hxy])
        · exact h1
      · exact hy z hz

theorem pairwise_sortBy (le : α → α → Bool)
    (htrans : ∀ a b c, le a b = true → le b c = true → le a c = true)
    (htotal : ∀ a b, le a b = true ∨ le b a = true) :
    ∀ l : List α, (sortBy le l).Pairwise (fun a b => le a b = true)
  | [] => List.Pairwise.nil
  | x :: xs =>
    pairwise_insertBy le htrans htotal x (pairwise_sortBy le htrans htotal xs)

/-- `sort_values(ascending=False)` yields a series that is non-increasing in
its values. -/
theorem pairwise_sortBy_desc [LinearOrder β] (l : List (γ × β)) :
    (sortBy (fun a b => decide (b.2 ≤ a.2)) l).Pairwise
      (fun a b => b.2 ≤ a.2) := by
  refine (pairwise_sortBy _ ?_ ?_ l).imp (fun h => of_decide_eq_true h)
  · intro a b c h1 h2
    exact decide_eq_true (le_trans (of_decide_eq_true h2) (of_decide_eq_true h1))
  · intro a b
    rcases le_total b.2 a.2 with h | h
    · exact Or.inl (decide_eq_true h)
    · exact Or.inr (decide_eq_true h)

theorem seriesMin_eq_none_iff [Min α] {l : List α} :
    seriesMin l = none ↔ l = [] := by
  cases l <;> simp [seriesMin]

theorem seriesMax_eq_none_iff [Max α] {l : List α} :
    seriesMax l = none ↔ l = [] := by
  cases l <;> simp [seriesMax]

theorem seriesMin_le_of_mem [LinearOrder α] :
    ∀ {l : List α} {lo x : α}, seriesMin l = some lo → x ∈ l → lo ≤ x := by
  intro l
  induction l with
  | nil => intro lo x h _; cases h
  | cons a as ih =>
    intro lo x h hx
    cases has : seriesMin as with
    | none =>
      rw [seriesMin_eq_none_iff.mp has] at hx h
      simp only [seriesMin, Option.some.injEq] at h
      subst h
      rcases List.mem_cons.mp hx with rfl | hx
      · exact le_refl _
      · cases hx
    | some b =>
      simp only [seriesMin, has, Option.some.injEq] at h
      subst h
      rcases List.mem_cons.mp hx with rfl | hx
      · exact min_le_left _ _
      · exact le_trans (min_le_right a b) (ih has hx)

theorem le_seriesMax_of_mem [LinearOrder α] :
    ∀ {l : List α} {hi x : α}, seriesMax l = some hi → x ∈ l → x ≤ hi := by
  intro l
  induction l with
  | nil => intro hi x h _; cases h
  | cons a as ih =>
    intro hi x h hx
    cases has : seriesMax as with
    | none =>
      rw [seriesMax_eq_none_iff.mp has] at hx h
      simp only [seriesMax, Option.some.injEq] at h
      subst h
      rcases List.mem_cons.mp hx with rfl | hx
      · exact le_refl _
      · cases hx
    | some b =>
      simp only [seriesMax, has, Option.some.injEq] at h
      subst h
      rcases List.mem_cons.mp hx with rfl | hx
      · exact le_max_left _ _
      · exact le_trans (ih has hx) (le_max_right a b)

theorem seriesMin_mem [LinearOrder α] :
    ∀ {l : List α} {lo : α}, seriesMin l = some lo → lo ∈ l := by
  intro l
  induction l with
  | nil => intro lo h; cases h
  | cons a as ih =>
    intro lo h
    cases has : seriesMin as with
    | none =>
      simp only [seriesMin, has, Option.some.injEq] at h
      subst h
      exact List.mem_cons_self a as
    | some b =>
      simp only [seriesMin, has, Option.some.injEq] at h
      subst h
      rcases min_choice a b with hc | hc
      · rw [hc]; exact List.mem_cons_self a as
      · rw [hc]; exact List.mem_cons_of_mem a (ih has)

theorem seriesMax_mem [LinearOrder α] :
    ∀ {l : List α} {hi : α}, seriesMax l = some hi → hi ∈ l := by
  intro l
  induction l with
  | nil => intro hi h; cases h
  | cons a as ih =>
    intro hi h
    cases has : seriesMax as with
    | none =>
      simp only [seriesMax, has, Option.some.injEq] at h
      subst h
      exact List.mem_cons_self a as
    | some b =>
      simp only [seriesMax, has, Option.some.injEq] at h
      subst h
      rcases max_choice a b with hc | hc
      · rw [hc]; exact List.mem_cons_self a as
      · rw [hc]; exact List.mem_cons_of_mem a (ih has)

/-- What a pandas sum actually adds for one row: the revenue if defined,
nothing (`0`) if `NaN`. -/
def ingresoD (r : Row) : ℚ := (ingreso r).getD 0

theorem sumSkip_map_ingreso (l : List Row) :
    sumSkip (l.map ingreso) = (l.map ingresoD).sum := by
  simp only [sumSkip, List.map_map]
  rfl

theorem sum_indicator_of_not_mem (c : ℚ) :
    ∀ (ms : List Nat) (k : Nat), k ∉ ms →
      (ms.map (fun m => if k = m then c else 0)).sum = 0 := by
  intro ms
  induction ms with
  | nil => intro k _; simp
  | cons m ms ih =>
    intro k hk
    rw [List.mem_cons, not_or] at hk
    simp [hk.1, ih k hk.2]

theorem sum_indicator_of_mem (c : ℚ) :
    ∀ (ms : List Nat) (k : Nat), ms.Nodup → k ∈ ms →
      (ms.map (fun m => if k = m then c else 0)).sum = c := by
  intro ms
  induction ms with
  | nil => intro k _ hk; cases hk
  | cons m ms ih =>
    intro k hnd hk
    rcases List.pairwise_cons.mp hnd with ⟨hm, hnd⟩
    rcases List.mem_cons.mp hk with rfl | hk
    · have : k ∉ ms := fun h => (hm k h) rfl
      simp [sum_indicator_of_not_mem c ms k this]
    · have hne : k ≠ m := fun h => (hm k hk) h.symm
      simp [hne, ih k hnd hk]

/-- Summing a per-month bucketed column over any duplicate-free family of
buckets that covers every row gives the plain column sum. -/
theorem sum_partition (ms : List Nat) :
    ∀ rows : List Row, ms.Nodup → (∀ r ∈ rows, monthIdx r.fecha ∈ ms) →
      (ms.map (fun m =>
        ((rows.filter (fun r => monthIdx r.fecha == m)).map ingresoD).sum)).sum
      = (rows.map ingresoD).sum := by
  intro rows
  induction rows with
  | nil =>
    intro _ _
    simp
  | cons r rs ih =>
    intro hnd hcov
    have hmem : monthIdx r.fecha ∈ ms := hcov r (List.mem_cons_self r rs)
    have step : ∀ m : Nat,
        (((r :: rs).filter (fun x => monthIdx x.fecha == m)).map ingresoD).sum
        = (if monthIdx r.fecha = m then ingresoD r else 0)
          + ((rs.filter (fun x => monthIdx x.fecha == m)).map ingresoD).sum := by
      intro m
      by_cases h : monthIdx r.fecha = m
      · simp [List.filter_cons, h]
      · simp [List.filter_cons, h]
    simp only [step]
    rw [List.sum_map_add]
    rw [sum_indicator_of_mem (ingresoD r) ms (monthIdx r.fecha) hnd hmem]
    rw [ih hnd (fun x hx => hcov x (List.mem_cons_of_mem r hx))]
    simp

theorem nodup_mesesRango (rows : List Row) : (mesesRango rows).Nodup := by
  unfold mesesRango
  cases seriesMin (rows.map fun r => monthIdx r.fecha) with
  | none => simp
  | some lo =>
    cases seriesMax (rows.map fun r => monthIdx r.fecha) with
    | none => simp
    | some hi =>
      exact List.Nodup.map (fun a b h => by omega) (List.nodup_range _)

theorem mem_mesesRango_iff {rows : List Row} {lo hi : Nat}
    (hmin : seriesMin (rows.map fun r => monthIdx r.fecha) = some lo)
    (hmax : seriesMax (rows.map fun r => monthIdx r.fecha) = some hi)
    (k : Nat) : k ∈ mesesRango rows ↔ lo ≤ k ∧ k ≤ hi := by
  have hlohi : lo ≤ hi :=
    seriesMin_le_of_mem hmin (seriesMax_mem hmax)
  unfold mesesRango
  rw [hmin, hmax]
  simp only [List.mem_map, List.mem_range]
  constructor
  · rintro ⟨i, hi1, rfl⟩
    omega
  · rintro ⟨h1, h2⟩
    exact ⟨k - lo, by omega, by omega⟩

theorem mem_mesesRango {rows : List Row} {r : Row} (hr : r ∈ rows) :
    monthIdx r.fecha ∈ mesesRango rows := by
  have hmem : monthIdx r.fecha ∈ rows.map (fun r => monthIdx r.fecha) :=
    List.mem_map_of_mem _ hr
  cases hmin : seriesMin (rows.map fun r => monthIdx r.fecha) with
  | none =>
    rw [seriesMin_eq_none_iff.mp hmin] at hmem
    cases hmem
  | some lo =>
    cases hmax : seriesMax (rows.map fun r => monthIdx r.fecha) with
    | none =>
      rw [seriesMax_eq_none_iff.mp hmax] at hmem
      cases hmem
    | some hi =>
      exact (mem_mesesRango_iff hmin hmax _).mpr
        ⟨seriesMin_le_of_mem hmin hmem, le_seriesMax_of_mem hmax hmem⟩

theorem chain_lt_mesesRango (rows : List Row) :
    List.Chain' (fun a b => a < b) (mesesRango rows) := by
  unfold mesesRango
  cases seriesMin (rows.map fun r => monthIdx r.fecha) with
  | none => simp
  | some lo =>
    cases seriesMax (rows.map fun r => monthIdx r.fecha) with
    | none => simp
    | some hi =>
      rw [List.chain'_map]
      cases hn : hi + 1 - lo with
      | zero => simp
      | succ n =>
        rw [List.chain'_range_succ]
        intro m _
        omega

/-- Inversion of `calcular_metricas`: what a successful return is made of. -/
theorem calcular_metricas_eq_some {rows : List Row} {m : Metricas}
    (h : calcular_metricas rows = some m) :
    m.df = rows.map (fun r => (r, ingreso r)) ∧
    m.ventas_mensuales = ventas_mensuales rows ∧
    m.cant_por_producto = cant_por_producto rows ∧
    m.ingresos_por_producto = ingresos_por_producto rows ∧
    idxmax (cant_por_producto rows) = some m.producto_mas_vendido ∧
    maxVal (cant_por_producto rows) = some m.cantidad_max ∧
    idxmax (ingresos_por_producto rows) = some m.producto_top_ingresos ∧
    maxVal (ingresos_por_producto rows) = some m.ingresos_max := by
  unfold calcular_metricas at h
  split at h
  · cases h
    rename_i h1 h2 h3 h4
    exact ⟨rfl, rfl, rfl, rfl, h1, h2, h3, h4⟩
  · cases h

/-- Replacing a `NaN` price by the price `0` (the value a pandas sum
effectively gives it). -/
def zeroNaN (r : Row) : Row :=
  { r with precio := some (r.precio.getD 0) }

theorem ingresoD_zeroNaN (r : Row) : ingresoD (zeroNaN r) = ingresoD r := by
  cases hp : r.precio <;> simp [ingresoD, ingreso, zeroNaN, hp]

theorem sum_ingresoD_filter_zeroNaN (p : Row → Bool)
    (hp : ∀ r, p (zeroNaN r) = p r) :
    ∀ rows : List Row,
      (((rows.map zeroNaN).filter p).map ingresoD).sum
      = ((rows.filter p).map ingresoD).sum := by
  intro rows
  induction rows with
  | nil => simp
  | cons r rs ih =>
    simp only [List.map_cons, List.filter_cons, hp r]
    cases hpr : p r with
    | true => simp [ingresoD_zeroNaN, ih]
    | false => simp [ih]

theorem mesesRango_zeroNaN (rows : List Row) :
    mesesRango (rows.map zeroNaN) = mesesRango rows := by
  unfold mesesRango
  rw [List.map_map]
  rfl

theorem ventas_mensuales_zeroNaN (rows : List Row) :
    ventas_mensuales (rows.map zeroNaN) = ventas_mensuales rows := by
  unfold ventas_mensuales
  rw [mesesRango_zeroNaN]
  apply List.map_congr_left
  intro m _
  rw [Prod.mk.injEq]
  refine ⟨rfl, ?_⟩
  rw [sumSkip_map_ingreso, sumSkip_map_ingreso]
  exact sum_ingresoD_filter_zeroNaN (fun x => monthIdx x.fecha == m)
    (fun r => rfl) rows

theorem productos_zeroNaN (rows : List Row) :
    productos (rows.map zeroNaN) = productos rows := by
  unfold productos
  rw [List.map_map]
  rfl

theorem ingresos_por_producto_zeroNaN (rows : List Row) :
    ingresos_por_producto (rows.map zeroNaN) = ingresos_por_producto rows := by
  unfold ingresos_por_producto
  rw [productos_zeroNaN]
  congr 1
  apply List.map_congr_left
  intro p _
  rw [Prod.mk.injEq]
  refine ⟨rfl, ?_⟩
  rw [sumSkip_map_ingreso, sumSkip_map_ingreso]
  exact sum_ingresoD_filter_zeroNaN (fun x => x.producto == p)
    (fun r => rfl) rows

/-- What `idxmax` and `max` return on a series: a key of the series paired
with its value, that value being an upper bound of the whole series. -/
theorem idxmax_maxVal_spec [LinearOrder β] {l : List (γ × β)} {k : γ} {v : β}
    (h1 : idxmax l = some k) (h2 : maxVal l = some v) :
    (k, v) ∈ l ∧ ∀ x ∈ l, x.2 ≤ v := by
  unfold idxmax at h1
  rw [h2] at h1
  replace h1 : (l.find? (fun x => decide (x.2 = v))).map Prod.fst = some k := h1
  cases hf : l.find? (fun x => decide (x.2 = v)) with
  | none => rw [hf] at h1; cases h1
  | some e =>
    rw [hf] at h1
    replace h1 : e.1 = k := by simpa using h1
    have he : e ∈ l := List.mem_of_find?_eq_some hf
    have hpe := List.find?_some hf
    have hev : e.2 = v := of_decide_eq_true hpe
    constructor
    · rw [← h1, ← hev, Prod.mk.eta]
      exact he
    · intro x hx
      exact le_seriesMax_of_mem h2 (List.mem_map_of_mem _ hx)

/-- On a non-empty series both `idxmax` and `max` are defined. -/
theorem exists_idxmax_maxVal [LinearOrder β] {l : List (γ × β)} (h : l ≠ []) :
    ∃ k v, idxmax l = some k ∧ maxVal l = some v := by
  cases h2 : maxVal l with
  | none =>
    unfold maxVal at h2
    rw [seriesMax_eq_none_iff] at h2
    exact absurd (List.map_eq_nil_iff.mp h2) h
  | some v =>
    have hvmem : v ∈ l.map Prod.snd := seriesMax_mem h2
    rcases List.mem_map.mp hvmem with ⟨e, he, hev⟩
    have hsome : (l.find? (fun x => decide (x.2 = v))).isSome := by
      rw [List.find?_isSome]
      exact ⟨e, he, decide_eq_true hev⟩
    rcases Option.isSome_iff_exists.mp hsome with ⟨e2, he2⟩
    refine ⟨e2.1, v, ?_, rfl⟩
    show idxmax l = some e2.1
    unfold idxmax
    rw [h2]
    show (l.find? (fun x => decide (x.2 = v))).map Prod.fst = some e2.1
    rw [he2]
    rfl

theorem cant_por_producto_ne_nil {rows : List Row} (h : rows ≠ []) :
    cant_por_producto rows ≠ [] := by
  intro hcon
  have hlen := congrArg List.length hcon
  rw [cant_por_producto, length_sortBy, List.length_map, productos,
    length_sortBy] at hlen
  have hd : (rows.map Row.producto).dedup = [] :=
    List.eq_nil_of_length_eq_zero hlen
  rw [List.dedup_eq_nil] at hd
  exact h (List.map_eq_nil_iff.mp hd)

theorem ingresos_por_producto_ne_nil {rows : List Row} (h : rows ≠ []) :
    ingresos_por_producto rows ≠ [] := by
  intro hcon
  have hlen := congrArg List.length hcon
  rw [ingresos_por_producto, length_sortBy, List.length_map, productos,
    length_sortBy] at hlen
  have hd : (rows.map Row.producto).dedup = [] :=
    List.eq_nil_of_length_eq_zero hlen
  rw [List.dedup_eq_nil] at hd
  exact h (List.map_eq_nil_iff.mp hd)

/-- The two `NaN`-shaped quantity cells coerce alike, to `0`. -/
theorem coerce_cantidad_eq (v : RawCant) :
    coerce_cantidad v
      = match v with
        | RawCant.num q => castInt64 q
        | _ => 0 := by
  cases v <;> rfl

theorem map_fst_mk (f : α → β) :
    ∀ l : List α, ((l.map (fun a => (a, f a))).map Prod.fst) = l := by
  intro l
  induction l with
  | nil => rfl
  | cons a as ih => simp [ih]

theorem map_snd_mk (f : α → β) :
    ∀ l : List α, ((l.map (fun a => (a, f a))).map Prod.snd) = l.map f := by
  intro l
  induction l with
  | nil => rfl
  | cons a as ih => simp [ih]

/-! The claims. -/

/-- C1: for every row of the loaded table, the derived revenue value computed
by `calcular_metricas` equals that row's quantity multiplied by its price;
an undefined (`NaN`) price yields an undefined revenue for that row (the
`Option.map` makes the revenue `none` exactly when the price is `none`). -/
theorem C1_revenue_per_row {rows : List Row} {m : Metricas}
    (h : calcular_metricas rows = some m) :
    m.df.length = rows.length ∧
    ∀ i (h1 : i < rows.length) (h2 : i < m.df.length),
      (m.df.get ⟨i, h2⟩).2
        = (rows.get ⟨i, h1⟩).precio.map
            (fun p => ((rows.get ⟨i, h1⟩).cantidad : ℚ) * p) := by
  obtain ⟨df, vm, cpp, ipp, pmv, cm, pti, im⟩ := m
  obtain ⟨hdf, -⟩ := calcular_metricas_eq_some h
  subst hdf
  constructor
  · rw [List.length_map]
  · intro i h1 h2
    simp only [List.get_eq_getElem, List.getElem_map]
    rfl

/-- C2: the sum over all entries of the monthly revenue series produced by
`calcular_metricas` equals the (pandas, `NaN`-skipping) sum of the per-row
revenue column over the whole table. -/
theorem C2_monthly_conservation {rows : List Row} {m : Metricas}
    (h : calcular_metricas rows = some m) :
    (m.ventas_mensuales.map Prod.snd).sum = sumSkip (m.df.map Prod.snd) := by
  obtain ⟨hdf, hvm, -⟩ := calcular_metricas_eq_some h
  rw [hdf, hvm, map_snd_mk]
  unfold ventas_mensuales
  rw [map_snd_mk, sumSkip_map_ingreso]
  have hcongr : (mesesRango rows).map
        (fun m => sumSkip ((rows.filter (fun r => monthIdx r.fecha == m)).map ingreso))
      = (mesesRango rows).map
        (fun m => ((rows.filter (fun r => monthIdx r.fecha == m)).map ingresoD).sum) :=
    List.map_congr_left (fun m _ => sumSkip_map_ingreso _)
  rw [hcongr]
  exact sum_partition _ rows (nodup_mesesRango rows) (fun r hr => mem_mesesRango hr)

/-- C3 (amended): the monthly revenue series produced by `calcular_metricas`
is keyed by the full contiguous range of calendar months spanned by the
transactions: a month is a key exactly when it lies between two transaction
months (so every truncated transaction date is a key, and a month with no
transactions lying inside the span is a key too), a key month with no
transactions carries revenue `0`, and the keys are strictly increasing
(chronological order). -/
theorem C3_keyset_amended {rows : List Row} {m : Metricas}
    (h : calcular_metricas rows = some m) :
    List.Chain' (fun a b => a < b) (m.ventas_mensuales.map Prod.fst) ∧
    (∀ k : Nat, k ∈ m.ventas_mensuales.map Prod.fst ↔
      ∃ r1 ∈ rows, ∃ r2 ∈ rows, monthIdx r1.fecha ≤ k ∧ k ≤ monthIdx r2.fecha) ∧
    (∀ e ∈ m.ventas_mensuales, (∀ r ∈ rows, monthIdx r.fecha ≠ e.1) →
      e.2 = 0) := by
  obtain ⟨-, hvm, -⟩ := calcular_metricas_eq_some h
  rw [hvm]
  refine ⟨?_, ?_, ?_⟩
  · unfold ventas_mensuales
    rw [map_fst_mk]
    exact chain_lt_mesesRango rows
  · intro k
    unfold ventas_mensuales
    rw [map_fst_mk]
    constructor
    · intro hk
      cases hmin : seriesMin (rows.map fun r => monthIdx r.fecha) with
      | none =>
        unfold mesesRango at hk
        rw [hmin] at hk
        cases hk
      | some lo =>
        cases hmax : seriesMax (rows.map fun r => monthIdx r.fecha) with
        | none =>
          unfold mesesRango at hk
          rw [hmin, hmax] at hk
          cases hk
        | some hi =>
          rcases (mem_mesesRango_iff hmin hmax k).mp hk with ⟨hlo, hhi⟩
          rcases List.mem_map.mp (seriesMin_mem hmin) with ⟨r1, hr1, hr1m⟩
          rcases List.mem_map.mp (seriesMax_mem hmax) with ⟨r2, hr2, hr2m⟩
          exact ⟨r1, hr1, r2, hr2, by rw [hr1m]; exact hlo,
            by rw [hr2m]; exact hhi⟩
    · rintro ⟨r1, hr1, r2, hr2, hk1, hk2⟩
      have hm1 : monthIdx r1.fecha ∈ rows.map (fun r => monthIdx r.fecha) :=
        List.mem_map_of_mem _ hr1
      cases hmin : seriesMin (rows.map fun r => monthIdx r.fecha) with
      | none =>
        rw [seriesMin_eq_none_iff.mp hmin] at hm1
        cases hm1
      | some lo =>
        cases hmax : seriesMax (rows.map fun r => monthIdx r.fecha) with
        | none =>
          rw [seriesMax_eq_none_iff.mp hmax] at hm1
          cases hm1
        | some hi =>
          refine (mem_mesesRango_iff hmin hmax k).mpr ⟨?_, ?_⟩
          · exact le_trans (seriesMin_le_of_mem hmin hm1) hk1
          · exact le_trans hk2
              (le_seriesMax_of_mem hmax (List.mem_map_of_mem _ hr2))
  · intro e he hno
    unfold ventas_mensuales at he
    rcases List.mem_map.mp he with ⟨mm, hmm, rfl⟩
    show sumSkip ((rows.filter (fun r => monthIdx r.fecha == mm)).map ingreso)
      = 0
    have hfe : rows.filter (fun r => monthIdx r.fecha == mm) = [] := by
      rw [List.filter_eq_nil_iff]
      intro r hr
      simpa using hno r hr
    rw [hfe]
    rfl

/-- C5 (amended): a row whose price is the undefined marker has an undefined
revenue, but that `NaN` does not poison the downstream sums: the monthly
revenue series and the revenue-by-product series are exactly what they
would be if the `NaN` price were `0` — a pandas sum silently skips `NaN`,
so every downstream sum stays defined. -/
theorem C5_nan_skipped_amended (rows : List Row) :
    ventas_mensuales (rows.map zeroNaN) = ventas_mensuales rows ∧
    ingresos_por_producto (rows.map zeroNaN) = ingresos_por_producto rows :=
  ⟨ventas_mensuales_zeroNaN rows, ingresos_por_producto_zeroNaN rows⟩

/-- C6: whenever the loader fails — missing input file, unparseable input, or
a required column (such as `precio`) absent after header normalization —
the process exits with status 1 and no output file at all is produced. -/
theorem C6_loader_failure :
    run_main CsvInput.fileMissing = ⟨1, []⟩ ∧
    run_main CsvInput.unparseable = ⟨1, []⟩ ∧
    ∀ (cols : List String) (rows : List RawRow) (c : String),
      c ∈ requeridas → c ∉ cols.map normalizar →
        run_main (CsvInput.parsed cols rows) = ⟨1, []⟩ := by
  refine ⟨rfl, rfl, ?_⟩
  intro cols rows c hreq hmiss
  have hall : requeridas.all (fun c => (cols.map normalizar).contains c) = false := by
    cases hcon : requeridas.all (fun c => (cols.map normalizar).contains c) with
    | false => rfl
    | true =>
      have hc := List.all_eq_true.mp hcon c hreq
      have : c ∈ cols.map normalizar := by simpa using hc
      exact absurd this hmiss
  simp only [run_main, cargar_csv, hall, Bool.false_eq_true, if_false]

/-- C7: both rankings returned by `calcular_metricas` — quantity by product
and revenue by product — are sorted in non-increasing order of their
aggregate value. -/
theorem C7_rankings_sorted {rows : List Row} {m : Metricas}
    (h : calcular_metricas rows = some m) :
    m.cant_por_producto.Pairwise (fun a b => b.2 ≤ a.2) ∧
    m.ingresos_por_producto.Pairwise (fun a b => b.2 ≤ a.2) := by
  obtain ⟨-, -, hcpp, hipp, -⟩ := calcular_metricas_eq_some h
  rw [hcpp, hipp]
  exact ⟨pairwise_sortBy_desc _, pairwise_sortBy_desc _⟩

/-- C8: the top-by-quantity result of `calcular_metricas` is an entry of the
quantity-by-product series whose value is that series' maximum, and the
top-by-revenue result is an entry of the revenue-by-product series whose
value is that series' maximum. -/
theorem C8_top_is_max {rows : List Row} {m : Metricas}
    (h : calcular_metricas rows = some m) :
    ((m.producto_mas_vendido, m.cantidad_max) ∈ m.cant_por_producto ∧
      ∀ x ∈ m.cant_por_producto, x.2 ≤ m.cantidad_max) ∧
    ((m.producto_top_ingresos, m.ingresos_max) ∈ m.ingresos_por_producto ∧
      ∀ x ∈ m.ingresos_por_producto, x.2 ≤ m.ingresos_max) := by
  obtain ⟨-, -, hcpp, hipp, h1, h2, h3, h4⟩ := calcular_metricas_eq_some h
  rw [hcpp, hipp]
  exact ⟨idxmax_maxVal_spec h1 h2, idxmax_maxVal_spec h3 h4⟩

/-- C9: `calcular_metricas` leaves the loader's table intact: the returned
derived table consists of the original rows (dates, products, quantities and
prices unchanged) with the revenue column attached alongside each row, so
projecting the derived column away recovers the input exactly. -/
theorem C9_no_mutation {rows : List Row} {m : Metricas}
    (h : calcular_metricas rows = some m) :
    m.df.map Prod.fst = rows := by
  obtain ⟨hdf, -⟩ := calcular_metricas_eq_some h
  rw [hdf, map_fst_mk]

/-- C10: on every non-empty validated table `calcular_metricas` returns
without raising: both `idxmax`/`max` lookups are defined — in particular
this holds even when every price is `NaN`, because the `NaN`-skipping
per-product revenue sums are then `0`, not `NaN`. -/
theorem C10_nonempty_no_error (rows : List Row) (h : rows ≠ []) :
    (calcular_metricas rows).isSome := by
  rcases exists_idxmax_maxVal (cant_por_producto_ne_nil h) with ⟨k1, v1, h1, h2⟩
  rcases exists_idxmax_maxVal (ingresos_por_producto_ne_nil h) with ⟨k2, v2, h3, h4⟩
  unfold calcular_metricas
  rw [h1, h2, h3, h4]
  rfl

/-- C4 (amended): the loader accepts exactly the inputs whose normalized
header has the required columns and whose quantity cells are all finite or
`NaN`; a non-finite (`inf`) quantity cell aborts the load even with a valid
header (so the coercion is not total). On every accepted table no row is
dropped and each quantity is an integer: the int64 cast of a finite numeric
input (toward-zero truncation in range, the int64 wrap sentinel `-2^63` out
of range), `0` for a non-numeric or missing input. (The original claim's
lower bound `0 ≤ quantity` does not hold: negative numeric inputs stay
negative.) -/
theorem C4_coercion_amended (cols : List String) (rows : List RawRow) :
    ((cargar_csv (CsvInput.parsed cols rows)).isOk
      = (requeridas.all (fun c => (cols.map normalizar).contains c)
          && !(rows.any (fun r => esNoFinito r.cantidad)))) ∧
    (rows.any (fun r => esNoFinito r.cantidad) = true →
      cargar_csv (CsvInput.parsed cols rows) = Except.error 1) ∧
    ∀ out, cargar_csv (CsvInput.parsed cols rows) = Except.ok out →
      out.length = rows.length ∧
      ∀ i (h1 : i < rows.length) (h2 : i < out.length),
        esNoFinito (rows.get ⟨i, h1⟩).cantidad = false ∧
        (out.get ⟨i, h2⟩).cantidad
          = match (rows.get ⟨i, h1⟩).cantidad with
            | RawCant.num q => castInt64 q
            | _ => 0 := by
  cases hall : requeridas.all (fun c => (cols.map normalizar).contains c) with
  | false =>
    have hload : cargar_csv (CsvInput.parsed cols rows) = Except.error 1 := by
      simp only [cargar_csv]
      rw [hall]
      rfl
    refine ⟨by rw [hload]; rfl, fun _ => hload, ?_⟩
    intro out hout
    rw [hload] at hout
    cases hout
  | true =>
    cases hany : rows.any (fun r => esNoFinito r.cantidad) with
    | true =>
      have hload : cargar_csv (CsvInput.parsed cols rows) = Except.error 1 := by
        simp only [cargar_csv]
        rw [hall, hany]
        rfl
      refine ⟨by rw [hload]; rfl, fun _ => hload, ?_⟩
      intro out hout
      rw [hload] at hout
      cases hout
    | false =>
      have hload : cargar_csv (CsvInput.parsed cols rows)
          = Except.ok (rows.map (fun r =>
              ({ fecha := r.fecha, producto := r.producto,
                 cantidad := coerce_cantidad r.cantidad,
                 precio := coerce_precio r.precio } : Row))) := by
        simp only [cargar_csv]
        rw [hall, hany]
        rfl
      refine ⟨by rw [hload]; rfl, ?_, ?_⟩
      · intro hcon
        exact absurd hcon (by decide)
      · intro out hout
        rw [hload] at hout
        injection hout with hout
        subst hout
        constructor
        · rw [List.length_map]
        · intro i h1 h2
          constructor
          · have hnof := List.any_eq_false.mp hany
            have hmem := List.get_mem rows i h1
            simpa using hnof _ hmem
          · simp only [List.get_eq_getElem, List.getElem_map]
            exact coerce_cantidad_eq _

/-! Concrete tables used to exercise the theorems. -/

/-- A two-row January table: product `A` with a defined price, product `B`
with a `NaN` price. -/
def exRows : List Row :=
  [ ⟨⟨2024, 1, 5⟩, "A", 3, some 10⟩,
    ⟨⟨2024, 1, 20⟩, "B", 2, none⟩ ]

/-- The metrics bundle `calcular_metricas` produces on `exRows`. -/
def exM : Metricas :=
  { df := [ (⟨⟨2024, 1, 5⟩, "A", 3, some 10⟩, some 30),
            (⟨⟨2024, 1, 20⟩, "B", 2, none⟩, none) ],
    ventas_mensuales := [(24288, 30)],
    cant_por_producto := [("A", 3), ("B", 2)],
    ingresos_por_producto := [("A", 30), ("B", 0)],
    producto_mas_vendido := "A", cantidad_max := 3,
    producto_top_ingresos := "A", ingresos_max := 30 }

theorem exM_spec : calcular_metricas exRows = some exM := by
  have hdf : exRows.map (fun r => (r, ingreso r)) = exM.df := by
    norm_num [exRows, exM, ingreso]
  have hvm : ventas_mensuales exRows = [(24288, 30)] := by
    have hmr : mesesRango exRows = [24288] := by decide
    have hf : exRows.filter (fun r => monthIdx r.fecha == 24288) = exRows := by
      decide
    unfold ventas_mensuales
    rw [hmr]
    simp only [List.map_cons, List.map_nil, hf]
    norm_num [sumSkip, ingreso, exRows]
  have hcpp : cant_por_producto exRows = [("A", 3), ("B", 2)] := by decide
  have hipp : ingresos_por_producto exRows = [("A", 30), ("B", 0)] := by
    have hp : productos exRows = ["A", "B"] := by decide
    have hfa : exRows.filter (fun r => r.producto == "A")
        = [⟨⟨2024, 1, 5⟩, "A", 3, some 10⟩] := by decide
    have hfb : exRows.filter (fun r => r.producto == "B")
        = [⟨⟨2024, 1, 20⟩, "B", 2, none⟩] := by decide
    have hsa : sumSkip [ingreso (⟨⟨2024, 1, 5⟩, "A", 3, some 10⟩ : Row)]
        = 30 := by norm_num [sumSkip, ingreso]
    have hsb : sumSkip [ingreso (⟨⟨2024, 1, 20⟩, "B", 2, none⟩ : Row)]
        = 0 := by norm_num [sumSkip, ingreso]
    unfold ingresos_por_producto
    rw [hp]
    simp only [List.map_cons, List.map_nil, hfa, hfb, hsa, hsb]
    decide
  unfold calcular_metricas
  rw [hdf, hvm, hcpp, hipp]
  rfl

/-- Witness for C1 at the concrete table `exRows`. -/
theorem C1_revenue_per_row_witness :
    exM.df.length = exRows.length ∧
    ∀ i (h1 : i < exRows.length) (h2 : i < exM.df.length),
      (exM.df.get ⟨i, h2⟩).2
        = (exRows.get ⟨i, h1⟩).precio.map
            (fun p => ((exRows.get ⟨i, h1⟩).cantidad : ℚ) * p) :=
  C1_revenue_per_row exM_spec

/-- Witness for C2 at the concrete table `exRows`. -/
theorem C2_monthly_conservation_witness :
    (exM.ventas_mensuales.map Prod.snd).sum = sumSkip (exM.df.map Prod.snd) :=
  C2_monthly_conservation exM_spec

/-- Witness for the amended C3 at the concrete table `exRows`. -/
theorem C3_keyset_amended_witness :
    List.Chain' (fun a b => a < b) (exM.ventas_mensuales.map Prod.fst) ∧
    (∀ k : Nat, k ∈ exM.ventas_mensuales.map Prod.fst ↔
      ∃ r1 ∈ exRows, ∃ r2 ∈ exRows,
        monthIdx r1.fecha ≤ k ∧ k ≤ monthIdx r2.fecha) ∧
    (∀ e ∈ exM.ventas_mensuales, (∀ r ∈ exRows, monthIdx r.fecha ≠ e.1) →
      e.2 = 0) :=
  C3_keyset_amended exM_spec

/-- Witness for C7 at the concrete table `exRows`. -/
theorem C7_rankings_sorted_witness :
    exM.cant_por_producto.Pairwise (fun a b => b.2 ≤ a.2) ∧
    exM.ingresos_por_producto.Pairwise (fun a b => b.2 ≤ a.2) :=
  C7_rankings_sorted exM_spec

/-- Witness for C8 at the concrete table `exRows`. -/
theorem C8_top_is_max_witness :
    ((exM.producto_mas_vendido, exM.cantidad_max) ∈ exM.cant_por_producto ∧
      ∀ x ∈ exM.cant_por_producto, x.2 ≤ exM.cantidad_max) ∧
    ((exM.producto_top_ingresos, exM.ingresos_max) ∈ exM.ingresos_por_producto ∧
      ∀ x ∈ exM.ingresos_por_producto, x.2 ≤ exM.ingresos_max) :=
  C8_top_is_max exM_spec

/-- Witness for C9 at the concrete table `exRows`. -/
theorem C9_no_mutation_witness : exM.df.map Prod.fst = exRows :=
  C9_no_mutation exM_spec

/-- A one-row table whose only price is `NaN`. -/
def exAllNaN : List Row := [⟨⟨2024, 2, 1⟩, "Z", 1, none⟩]

/-- Witness for C10: a non-empty table, every price `NaN`, still no error. -/
theorem C10_nonempty_no_error_witness : (calcular_metricas exAllNaN).isSome :=
  C10_nonempty_no_error exAllNaN (by decide)

/-- Witness for C6: a header missing `precio` exits 1 and writes nothing. -/
theorem C6_loader_failure_witness :
    run_main (CsvInput.parsed ["fecha", "producto", "cantidad"] []) = ⟨1, []⟩ :=
  C6_loader_failure.2.2 ["fecha", "producto", "cantidad"] [] "precio"
    (by decide) (by decide)

/-- The header and single data row of the C4 examples. -/
def exC4cols : List String := ["fecha", "producto", "cantidad", "precio"]

/-- A raw row whose quantity cell holds the numeric value `-3`. -/
def exC4neg : List RawRow :=
  [⟨⟨2024, 1, 5⟩, "A", RawCant.num (-3), RawVal.num 10⟩]

/-- A raw row whose quantity cell parses to the float `inf`. -/
def exC4inf : List RawRow :=
  [⟨⟨2024, 1, 5⟩, "A", RawCant.inf false, RawVal.num 10⟩]

/-- Counterexample to C4 as stated, on two points: a numeric quantity cell
`-3` is accepted and returns the quantity `-3`, which is not `≥ 0`; and a
quantity cell `inf` makes the coercion fail (the run aborts) although the
header is valid, so the coercion is not failure-free either. -/
theorem C4_nonneg_counterexample :
    (cargar_csv (CsvInput.parsed exC4cols exC4neg)
        = Except.ok [⟨⟨2024, 1, 5⟩, "A", -3, some 10⟩] ∧
      ¬ ((0 : Int) ≤ -3)) ∧
    cargar_csv (CsvInput.parsed exC4cols exC4inf) = Except.error 1 :=
  ⟨⟨by rfl, by decide⟩, by rfl⟩

/-- Raw rows exercising the quantity-cell shapes the loader accepts:
in-range numeric, fractional numeric, non-numeric, missing, and a finite
numeric (`10^30`) beyond the int64 range. -/
def exC4rows : List RawRow :=
  [ ⟨⟨2024, 1, 5⟩, "A", RawCant.num 3, RawVal.num 10⟩,
    ⟨⟨2024, 1, 6⟩, "B", RawCant.num (Rat.mk' 5 2), RawVal.num 1⟩,
    ⟨⟨2024, 1, 7⟩, "C", RawCant.invalid, RawVal.num 1⟩,
    ⟨⟨2024, 1, 8⟩, "D", RawCant.missing, RawVal.num 1⟩,
    ⟨⟨2024, 1, 9⟩, "E", RawCant.num 1000000000000000000000000000000,
      RawVal.num 1⟩ ]

/-- The table the loader returns on `exC4rows`: `5/2` truncates to `2`, the
out-of-range `10^30` wraps to the int64 sentinel. -/
def exC4out : List Row :=
  [ ⟨⟨2024, 1, 5⟩, "A", 3, some 10⟩,
    ⟨⟨2024, 1, 6⟩, "B", 2, some 1⟩,
    ⟨⟨2024, 1, 7⟩, "C", 0, some 1⟩,
    ⟨⟨2024, 1, 8⟩, "D", 0, some 1⟩,
    ⟨⟨2024, 1, 9⟩, "E", -9223372036854775808, some 1⟩ ]

/-- Witness for the amended C4 at a concrete header and rows. -/
theorem C4_coercion_amended_witness :
    exC4out.length = exC4rows.length ∧
    ∀ i (h1 : i < exC4rows.length) (h2 : i < exC4out.length),
      esNoFinito (exC4rows.get ⟨i, h1⟩).cantidad = false ∧
      (exC4out.get ⟨i, h2⟩).cantidad
        = match (exC4rows.get ⟨i, h1⟩).cantidad with
          | RawCant.num q => castInt64 q
          | _ => 0 :=
  (C4_coercion_amended exC4cols exC4rows).2.2 exC4out (by rfl)

/-- Two transactions two months apart (January and March 2024). -/
def exC3rows : List Row :=
  [ ⟨⟨2024, 1, 5⟩, "A", 1, some 10⟩,
    ⟨⟨2024, 3, 2⟩, "A", 2, some 10⟩ ]

/-- The metrics bundle `calcular_metricas` produces on `exC3rows`. -/
def exC3M : Metricas :=
  { df := [ (⟨⟨2024, 1, 5⟩, "A", 1, some 10⟩, some 10),
            (⟨⟨2024, 3, 2⟩, "A", 2, some 10⟩, some 20) ],
    ventas_mensuales := [(24288, 10), (24289, 0), (24290, 20)],
    cant_por_producto := [("A", 3)],
    ingresos_por_producto := [("A", 30)],
    producto_mas_vendido := "A", cantidad_max := 3,
    producto_top_ingresos := "A", ingresos_max := 30 }

theorem exC3M_spec : calcular_metricas exC3rows = some exC3M := by
  have hdf : exC3rows.map (fun r => (r, ingreso r)) = exC3M.df := by
    norm_num [exC3rows, exC3M, ingreso]
  have hvm : ventas_mensuales exC3rows = [(24288, 10), (24289, 0), (24290, 20)] := by
    have hmr : mesesRango exC3rows = [24288, 24289, 24290] := by decide
    have hf1 : exC3rows.filter (fun r => monthIdx r.fecha == 24288)
        = [⟨⟨2024, 1, 5⟩, "A", 1, some 10⟩] := by decide
    have hf2 : exC3rows.filter (fun r => monthIdx r.fecha == 24289) = [] := by
      decide
    have hf3 : exC3rows.filter (fun r => monthIdx r.fecha == 24290)
        = [⟨⟨2024, 3, 2⟩, "A", 2, some 10⟩] := by decide
    unfold ventas_mensuales
    rw [hmr]
    simp only [List.map_cons, List.map_nil, hf1, hf2, hf3]
    norm_num [sumSkip, ingreso]
  have hcpp : cant_por_producto exC3rows = [("A", 3)] := by decide
  have hipp : ingresos_por_producto exC3rows = [("A", 30)] := by
    have hp : productos exC3rows = ["A"] := by decide
    have hfa : exC3rows.filter (fun r => r.producto == "A") = exC3rows := by
      decide
    unfold ingresos_por_producto
    rw [hp]
    simp only [List.map_cons, List.map_nil, hfa]
    norm_num [sumSkip, ingreso, exC3rows, sortBy, insertBy]
  unfold calcular_metricas
  rw [hdf, hvm, hcpp, hipp]
  rfl

/-- Counterexample to C3 as stated: on `exC3rows` the monthly series has the
key 24289 (February 2024), a month in which no transaction happens, so the
key set is strictly larger than the set of truncated transaction dates. -/
theorem C3_keyset_counterexample :
    ((calcular_metricas exC3rows).map (fun m => m.ventas_mensuales.map Prod.fst))
      = some [24288, 24289, 24290] ∧
    24289 ∉ exC3rows.map (fun r => monthIdx r.fecha) := by
  constructor
  · rw [exC3M_spec]
    rfl
  · decide

/-- One January table with a defined-price row and a `NaN`-price row for the
same product. -/
def exC5rows : List Row :=
  [ ⟨⟨2024, 1, 5⟩, "A", 2, some 5⟩,
    ⟨⟨2024, 1, 9⟩, "A", 3, none⟩ ]

/-- Counterexample to C5 as stated: the second row's revenue is the undefined
marker, yet the January revenue sum and product `A` revenue sum are the
defined value `10` — the `NaN` is skipped by the pandas sums, it does not
make them undefined. -/
theorem C5_nan_poison_counterexample :
    exC5rows.map ingreso = [some 10, none] ∧
    ventas_mensuales exC5rows = [(24288, 10)] ∧
    ingresos_por_producto exC5rows = [("A", 10)] := by
  refine ⟨?_, ?_, ?_⟩
  · norm_num [exC5rows, ingreso]
  · have hmr : mesesRango exC5rows = [24288] := by decide
    have hf : exC5rows.filter (fun r => monthIdx r.fecha == 24288) = exC5rows := by
      decide
    unfold ventas_mensuales
    rw [hmr]
    simp only [List.map_cons, List.map_nil, hf]
    norm_num [sumSkip, ingreso, exC5rows]
  · have hp : productos exC5rows = ["A"] := by decide
    have hfa : exC5rows.filter (fun r => r.producto == "A") = exC5rows := by
      decide
    unfold ingresos_por_producto
    rw [hp]
    simp only [List.map_cons, List.map_nil, hfa]
    norm_num [sumSkip, ingreso, exC5rows, sortBy, insertBy]

end InformeVentas
